import Mathlib

/-
  Verification development for the NDI audio source element
  (src/ndiaudiosrc.rs of gst-plugin-ndi).

  The element's hot path (`create`), its property handling
  (`set_property`), its lifecycle (`start`, `stop`) and the epoch
  establishment in `change_state` are embedded shallowly below.
  Machine integers (u64, u32, i8) are modelled as Nat / Int; the
  claims under study never drive them near overflow.  The opaque NDI
  SDK capture call is modelled by feeding `create` an explicit list of
  poll results (`Poll`); the registry lookup
  `receivers.get(&settings.id_receiver).unwrap().initial_timestamp`
  is modelled by passing that entry's `initial_timestamp` directly as
  the `time` parameter, and the process-global `ndi_struct.start_pts`
  as the `startPts` parameter (threaded through and returned).
-/

namespace GstNdi

/-- Negotiated audio format stored in `State.info` (a
`gst_audio::AudioInfo`): `create` only tests its presence, so we keep
just the negotiated rate and channel count. -/
structure AudioInfo where
  rate : Nat
  channels : Nat
deriving DecidableEq

/-- Per-adapter settings (struct `Settings`, ndiaudiosrc.rs lines 27-34).
`loss_threshold` is a u32, `id_receiver` an i8. -/
structure Settings where
  stream_name : String
  ip : String
  loss_threshold : Nat
  id_receiver : Int
  latency : Option Nat
deriving DecidableEq

/-- `impl Default for Settings` (lines 36-46). -/
def defaultSettings : Settings :=
  { stream_name := "Fixed ndi stream name"
    ip := ""
    loss_threshold := 40000
    id_receiver := 0
    latency := none }

/-- struct `TimestampData` (lines 90-93): `offset` is the running
sample offset (u64), `count_frame_none` the consecutive missing-frame
counter (u32). -/
structure TimestampData where
  offset : Nat
  count_frame_none : Nat
deriving DecidableEq

/-- struct `State` (lines 80-88): only the negotiated format. -/
structure State where
  info : Option AudioInfo
deriving DecidableEq

/-- The fields of an `NDIlib_audio_frame_v2_t` that the element reads.
`timestamp` is the NDI i64 timestamp cast to u64 (100 ns ticks). -/
structure AudioFrame where
  timestamp : Nat
  no_samples : Nat
  no_channels : Nat
  sample_rate : Nat
deriving DecidableEq

/-- The zero-initialized `Default::default()` audio frame that `create`
declares before entering its capture loop (line 410). -/
def defaultAudioFrame : AudioFrame := ⟨0, 0, 0, 0⟩

/-- Result of one `NDIlib_recv_capture_v2` poll, as classified by the
element: an audio frame (with its payload fields), a video or metadata
frame (the null video/metadata destination pointers mean no audio data
is written), no frame within the timeout, or an error. -/
inductive Poll where
  | audio (f : AudioFrame)
  | video
  | metadata
  | none_
  | error
deriving DecidableEq

/-- The metadata the element stamps on an output `gst::Buffer`.  A
buffer fresh from `gst::Buffer::with_size` has none of these fields
set, which we model with `Option` values that stay `none` unless the
corresponding `set_pts` / `set_duration` / `set_offset` /
`set_offset_end` call happens. -/
structure OutBuffer where
  size : Nat
  pts : Option Nat
  duration : Option Nat
  offset : Option Nat
  offset_end : Option Nat
deriving DecidableEq

/-- `gst::Buffer::with_size(0).unwrap()` with no metadata stamped: the
zero-length silence buffer returned on tolerated frame loss
(lines 425-426 and 433-434). -/
def emptyBuffer : OutBuffer :=
  { size := 0, pts := none, duration := none, offset := none, offset_end := none }

/-- Outcome of one `create` call: `Ok(buffer)`,
`Err(gst::FlowError::CustomError)` after the "source closed" read
error (line 429), or `Err(gst::FlowError::NotNegotiated)` (line 400). -/
inductive CreateResult where
  | buffer (b : OutBuffer)
  | flowError
  | notNegotiated
deriving DecidableEq

/-- How the `while skip_frame` loop of `create` (lines 415-442) ends:
either an early `return` out of `create` (`emit`, carrying the result
and the updated counters) or fall-through with an accepted frame. -/
inductive LoopExit where
  | emit (r : CreateResult) (td : TimestampData)
  | accept (f : AudioFrame)
deriving DecidableEq

/-- The `while skip_frame` loop of `create` (lines 415-442), consuming
successive poll results.  `af` is the `audio_frame` struct that
`NDIlib_recv_capture_v2` writes into: it is updated only by audio
polls and keeps its previous contents otherwise.  Returns `none` when
the supplied poll list is exhausted with the loop still running
(the real loop would keep polling). -/
def captureLoop (loss_threshold time : Nat) (td : TimestampData) (af : AudioFrame) :
    List Poll → Option (LoopExit × List Poll)
  | [] => none
  | Poll.audio f :: rest =>
      if time ≥ f.timestamp then captureLoop loss_threshold time td f rest
      else some (LoopExit.accept f, rest)
  | Poll.video :: rest =>
      if time ≥ af.timestamp then captureLoop loss_threshold time td af rest
      else some (LoopExit.accept af, rest)
  | Poll.metadata :: rest =>
      if time ≥ af.timestamp then captureLoop loss_threshold time td af rest
      else some (LoopExit.accept af, rest)
  | Poll.none_ :: rest =>
      if loss_threshold ≠ 0 then
        if td.count_frame_none < loss_threshold then
          some (LoopExit.emit (CreateResult.buffer emptyBuffer)
            { td with count_frame_none := td.count_frame_none + 1 }, rest)
        else some (LoopExit.emit CreateResult.flowError td, rest)
      else some (LoopExit.emit (CreateResult.buffer emptyBuffer) td, rest)
  | Poll.error :: rest =>
      if td.count_frame_none < loss_threshold then
        some (LoopExit.emit (CreateResult.buffer emptyBuffer)
          { td with count_frame_none := td.count_frame_none + 1 }, rest)
      else some (LoopExit.emit CreateResult.flowError td, rest)

/-- Duration stamped on an accepted buffer (lines 465-468):
`((no_samples as f64 / sample_rate as f64) * 1e9) as u64`.  For the
in-range values at hand the float computation truncates to the whole
nanosecond, modelled as Nat division.  No claim depends on its value. -/
def durationNanos (no_samples sample_rate : Nat) : Nat :=
  no_samples * 1000000000 / sample_rate

/-- `fn create` (lines 386-486).  `time` is the receiver entry's
`initial_timestamp`, `startPts` the current `ndi_struct.start_pts`,
`clockMinusBase` the value `element.get_clock().get_time() -
element.get_base_time()` that would replace a zero `start_pts`
(lines 454-457).  Returns the call result, the updated
`timestamp_data`, the updated `start_pts`, and the polls left
unconsumed; `none` means the poll list ran out mid-loop. -/
def create (settings : Settings) (info : Option AudioInfo)
    (time startPts clockMinusBase : Nat) (td : TimestampData)
    (polls : List Poll) :
    Option (CreateResult × TimestampData × Nat × List Poll) :=
  match info with
  | none => some (CreateResult.notNegotiated, td, startPts, polls)
  | some _ =>
    match captureLoop settings.loss_threshold time td defaultAudioFrame polls with
    | none => none
    | some (LoopExit.emit r td', rest) => some (r, td', startPts, rest)
    | some (LoopExit.accept f, rest) =>
      let pts := f.timestamp - time
      let buff_size := f.no_samples * 2 * f.no_channels
      let startPts' := if startPts = 0 then clockMinusBase else startPts
      let b : OutBuffer :=
        { size := buff_size
          pts := some (pts * 100 + startPts')
          duration := some (durationNanos f.no_samples f.sample_rate)
          offset := some td.offset
          offset_end := some (td.offset + f.no_samples) }
      some (CreateResult.buffer b,
        { offset := td.offset + f.no_samples, count_frame_none := 0 },
        startPts', rest)

/-- Iterate `create` over a shared stream of polls, collecting the
results of `n` successive calls and threading `timestamp_data` and
`start_pts` through. -/
def runN (settings : Settings) (info : Option AudioInfo)
    (time clockMinusBase : Nat) :
    Nat → Nat → TimestampData → List Poll →
    Option (List CreateResult × TimestampData × Nat × List Poll)
  | 0, startPts, td, polls => some ([], td, startPts, polls)
  | n + 1, startPts, td, polls =>
    match create settings info time startPts clockMinusBase td polls with
    | none => none
    | some (r, td', sp', polls') =>
      match runN settings info time clockMinusBase n sp' td' polls' with
      | none => none
      | some (rs, td'', sp'', polls'') => some (r :: rs, td'', sp'', polls'')

/-- The timestamps of the audio polls of a stream, in order. -/
def audioTimestamps (polls : List Poll) : List Nat :=
  polls.filterMap fun p =>
    match p with
    | Poll.audio f => some f.timestamp
    | _ => none

/-- The stamped pts values of the non-silence buffers among a run's
results, in production order.  Silence buffers are recognized by their
missing pts stamp: the accept path always stamps one (line 463), the
loss paths never do. -/
def realPts : List CreateResult → List Nat
  | [] => []
  | CreateResult.buffer b :: rs =>
    match b.pts with
    | some p => p :: realPts rs
    | none => realPts rs
  | _ :: rs => realPts rs

/-- The non-silence buffers among a run's results, in production
order, recognized by their stamped pts. -/
def realBuffers : List CreateResult → List OutBuffer
  | [] => []
  | CreateResult.buffer b :: rs =>
    match b.pts with
    | some _ => b :: realBuffers rs
    | none => realBuffers rs
  | _ :: rs => realBuffers rs

/-- The buffers' offset / offset_end stamps form a contiguous chain
starting at `o`: each buffer's offset is the running total and its
offset_end advances it. -/
def offsetChain : Nat → List OutBuffer → Prop
  | _, [] => True
  | o, b :: bs => b.offset = some o ∧
      ∃ n, b.offset_end = some (o + n) ∧ offsetChain (o + n) bs

/-- A value written through the property system. -/
inductive PropValue where
  | streamName (v : String)
  | ipAddr (v : String)
  | lossThreshold (v : Nat)
deriving DecidableEq

/-- `fn set_property` (lines 176-222): writes the matching `Settings`
field immediately, under the settings lock. -/
def set_property (s : Settings) : PropValue → Settings
  | PropValue.streamName v => { s with stream_name := v }
  | PropValue.ipAddr v => { s with ip := v }
  | PropValue.lossThreshold v => { s with loss_threshold := v }

/-- The epoch update in `change_state` on PausedToPlaying
(lines 274-278): the receiver entry's `initial_timestamp` is
overwritten with the captured frame's timestamp exactly when
`initial_timestamp <= frame.timestamp || initial_timestamp == 0`. -/
def setInitialTimestamp (initial_timestamp frame_timestamp : Nat) : Nat :=
  if initial_timestamp ≤ frame_timestamp ∨ initial_timestamp = 0 then frame_timestamp
  else initial_timestamp

/-- The adapter instance (struct `NdiAudioSrc`, lines 95-100, minus the
debug category). -/
structure NdiAudioSrc where
  settings : Settings
  state : State
  timestamp_data : TimestampData
deriving DecidableEq

/-- `fn start` (lines 301-313): resets `state` to default, stores the
`connect_ndi` result (passed in as `connectResult`) into
`settings.id_receiver`, succeeds iff it is nonzero.  `timestamp_data`
is not touched. -/
def start (a : NdiAudioSrc) (connectResult : Int) : NdiAudioSrc × Bool :=
  ({ a with
      state := { info := none }
      settings := { a.settings with id_receiver := connectResult } },
    connectResult != 0)

/-- `fn stop` (lines 315-323): resets `state` to default and calls
`stop_ndi`; always returns true.  `timestamp_data` is not touched. -/
def stop (a : NdiAudioSrc) : NdiAudioSrc × Bool :=
  ({ a with state := { info := none } }, true)

/-! ### Concrete data used by counterexamples and witnesses -/

/-- A concrete negotiated format. -/
def cInfo : AudioInfo := ⟨48000, 2⟩

/-- Concrete settings with a chosen loss threshold. -/
def cSettings (loss_threshold : Nat) : Settings :=
  { defaultSettings with loss_threshold := loss_threshold, id_receiver := 1 }

/-- A concrete audio frame with timestamp 110. -/
def cF110 : AudioFrame := ⟨110, 4, 2, 48000⟩

/-- A concrete audio frame with timestamp 105. -/
def cF105 : AudioFrame := ⟨105, 4, 2, 48000⟩

/-- A concrete audio frame with timestamp 50 (pre-epoch for time 100). -/
def cF50 : AudioFrame := ⟨50, 4, 2, 48000⟩

/-! ### Characterization lemmas for the capture loop and `create` -/

/-- An early `return` out of the capture loop leaves the running sample
offset unchanged, changes `count_frame_none` by at most one increment,
and carries either the unstamped zero-length buffer or the fatal
read-error result. -/
theorem captureLoop_emit {loss_threshold time : Nat} {td td' : TimestampData}
    {r : CreateResult} {rest : List Poll} :
    ∀ (polls : List Poll) (af : AudioFrame),
    captureLoop loss_threshold time td af polls = some (LoopExit.emit r td', rest) →
    td'.offset = td.offset ∧
      (td'.count_frame_none = td.count_frame_none ∨
        td'.count_frame_none = td.count_frame_none + 1) ∧
      (r = CreateResult.buffer emptyBuffer ∨ r = CreateResult.flowError) := by
  intro polls
  induction polls with
  | nil => intro af h; simp [captureLoop] at h
  | cons p rest' ih =>
    intro af h
    cases p with
    | audio f =>
      simp only [captureLoop] at h
      split at h
      · exact ih f h
      · simp at h
    | video =>
      simp only [captureLoop] at h
      split at h
      · exact ih af h
      · simp at h
    | metadata =>
      simp only [captureLoop] at h
      split at h
      · exact ih af h
      · simp at h
    | none_ =>
      simp only [captureLoop] at h
      split at h
      · split at h
        · simp only [Option.some.injEq, Prod.mk.injEq, LoopExit.emit.injEq] at h
          obtain ⟨⟨hr, htd⟩, hrest⟩ := h
          subst hr; subst htd
          exact ⟨rfl, Or.inr rfl, Or.inl rfl⟩
        · simp only [Option.some.injEq, Prod.mk.injEq, LoopExit.emit.injEq] at h
          obtain ⟨⟨hr, htd⟩, hrest⟩ := h
          subst hr; subst htd
          exact ⟨rfl, Or.inl rfl, Or.inr rfl⟩
      · simp only [Option.some.injEq, Prod.mk.injEq, LoopExit.emit.injEq] at h
        obtain ⟨⟨hr, htd⟩, hrest⟩ := h
        subst hr; subst htd
        exact ⟨rfl, Or.inl rfl, Or.inl rfl⟩
    | error =>
      simp only [captureLoop] at h
      split at h
      · simp only [Option.some.injEq, Prod.mk.injEq, LoopExit.emit.injEq] at h
        obtain ⟨⟨hr, htd⟩, hrest⟩ := h
        subst hr; subst htd
        exact ⟨rfl, Or.inr rfl, Or.inl rfl⟩
      · simp only [Option.some.injEq, Prod.mk.injEq, LoopExit.emit.injEq] at h
        obtain ⟨⟨hr, htd⟩, hrest⟩ := h
        subst hr; subst htd
        exact ⟨rfl, Or.inl rfl, Or.inr rfl⟩

/-- When the capture loop falls through with an accepted frame, that
frame came from an audio poll of the input stream, strictly after the
consumed prefix, and its timestamp is strictly ahead of the epoch.
The register invariant `af.timestamp ≤ time` holds at the loop entry
(the register starts zeroed) and is preserved by skipping. -/
theorem captureLoop_accept {loss_threshold time : Nat} {td : TimestampData}
    {f : AudioFrame} {rest : List Poll} :
    ∀ (polls : List Poll) (af : AudioFrame), af.timestamp ≤ time →
    captureLoop loss_threshold time td af polls = some (LoopExit.accept f, rest) →
    time < f.timestamp ∧ ∃ pre, polls = pre ++ Poll.audio f :: rest := by
  intro polls
  induction polls with
  | nil => intro af _ h; simp [captureLoop] at h
  | cons p rest' ih =>
    intro af haf h
    cases p with
    | audio g =>
      simp only [captureLoop] at h
      split at h
      · rename_i hge
        obtain ⟨h1, pre, h2⟩ := ih g (by omega) h
        exact ⟨h1, Poll.audio g :: pre, by simp [h2]⟩
      · rename_i hlt
        simp only [Option.some.injEq, Prod.mk.injEq, LoopExit.accept.injEq] at h
        obtain ⟨hgf, hrest⟩ := h
        subst hgf; subst hrest
        exact ⟨by omega, [], rfl⟩
    | video =>
      simp only [captureLoop] at h
      split at h
      · obtain ⟨h1, pre, h2⟩ := ih af haf h
        exact ⟨h1, Poll.video :: pre, by simp [h2]⟩
      · rename_i hlt
        exact absurd haf (by omega)
    | metadata =>
      simp only [captureLoop] at h
      split at h
      · obtain ⟨h1, pre, h2⟩ := ih af haf h
        exact ⟨h1, Poll.metadata :: pre, by simp [h2]⟩
      · rename_i hlt
        exact absurd haf (by omega)
    | none_ =>
      simp only [captureLoop] at h
      split at h
      · split at h <;> simp at h
      · simp at h
    | error =>
      simp only [captureLoop] at h
      split at h <;> simp at h

/-- The `audio_frame` register's pre-epoch contents do not influence
the capture loop: any two stale registers lead to the same outcome. -/
theorem captureLoop_af_irrel {loss_threshold time : Nat} {td : TimestampData} :
    ∀ (polls : List Poll) (af1 af2 : AudioFrame),
    af1.timestamp ≤ time → af2.timestamp ≤ time →
    captureLoop loss_threshold time td af1 polls
      = captureLoop loss_threshold time td af2 polls := by
  intro polls
  induction polls with
  | nil => intros; rfl
  | cons p rest' ih =>
    intro af1 af2 h1 h2
    cases p with
    | audio g => rfl
    | video =>
      simp only [captureLoop]
      rw [if_pos (by omega), if_pos (by omega)]
      exact ih af1 af2 h1 h2
    | metadata =>
      simp only [captureLoop]
      rw [if_pos (by omega), if_pos (by omega)]
      exact ih af1 af2 h1 h2
    | none_ => rfl
    | error => rfl

/-- A `create` call that returns a buffer with a stamped pts went
through the accept path: the accepted frame is an audio poll of the
stream whose timestamp is strictly ahead of the epoch, and size, pts,
duration, offset, offset_end and the updated counters are exactly the
values computed in lines 446-473 of the source. -/
theorem create_buffer_spec {s : Settings} {i : AudioInfo} {time sp cmb : Nat}
    {td td' : TimestampData} {b : OutBuffer} {sp' : Nat}
    {polls rest : List Poll} {p : Nat}
    (h : create s (some i) time sp cmb td polls
      = some (CreateResult.buffer b, td', sp', rest))
    (hp : b.pts = some p) :
    ∃ pre f, polls = pre ++ Poll.audio f :: rest ∧
      time < f.timestamp ∧
      sp' = (if sp = 0 then cmb else sp) ∧
      p = (f.timestamp - time) * 100 + sp' ∧
      b.size = f.no_samples * 2 * f.no_channels ∧
      b.duration = some (durationNanos f.no_samples f.sample_rate) ∧
      b.offset = some td.offset ∧
      b.offset_end = some (td.offset + f.no_samples) ∧
      td' = ⟨td.offset + f.no_samples, 0⟩ := by
  simp only [create] at h
  cases hcl : captureLoop s.loss_threshold time td defaultAudioFrame polls with
  | none => rw [hcl] at h; simp at h
  | some x =>
    obtain ⟨le, rest0⟩ := x
    rw [hcl] at h
    cases le with
    | emit r td0 =>
      simp only [Option.some.injEq, Prod.mk.injEq] at h
      obtain ⟨hr, htd, hsp, hrest⟩ := h
      obtain ⟨_, _, hre⟩ := captureLoop_emit polls defaultAudioFrame hcl
      cases hre with
      | inl hre =>
        rw [hre] at hr
        cases hr
        simp [emptyBuffer] at hp
      | inr hre => rw [hre] at hr; cases hr
    | accept f =>
      simp only [Option.some.injEq, Prod.mk.injEq, CreateResult.buffer.injEq] at h
      obtain ⟨hb, htd, hsp, hrest⟩ := h
      obtain ⟨ht, pre, hpre⟩ :=
        captureLoop_accept polls defaultAudioFrame (by simp [defaultAudioFrame]) hcl
      refine ⟨pre, f, by rw [hpre, hrest], ht, hsp.symm, ?_, ?_, ?_, ?_, ?_, htd.symm⟩
      · rw [← hb] at hp
        simp only [Option.some.injEq] at hp
        rw [← hp, hsp]
      · rw [← hb]
      · rw [← hb]
      · rw [← hb]
      · rw [← hb]

/-- A `create` call that returns the unstamped zero-length silence
buffer took an early-return loss branch: the running sample offset and
`ndi_struct.start_pts` are unchanged and `count_frame_none` is either
unchanged (zero-threshold branch, line 431) or incremented once
(line 423). -/
theorem create_silence_spec {s : Settings} {i : AudioInfo} {time sp cmb : Nat}
    {td td' : TimestampData} {sp' : Nat} {polls rest : List Poll}
    (h : create s (some i) time sp cmb td polls
      = some (CreateResult.buffer emptyBuffer, td', sp', rest)) :
    td'.offset = td.offset ∧
      (td'.count_frame_none = td.count_frame_none ∨
        td'.count_frame_none = td.count_frame_none + 1) ∧
      sp' = sp := by
  simp only [create] at h
  cases hcl : captureLoop s.loss_threshold time td defaultAudioFrame polls with
  | none => rw [hcl] at h; simp at h
  | some x =>
    obtain ⟨le, rest0⟩ := x
    rw [hcl] at h
    cases le with
    | emit r td0 =>
      simp only [Option.some.injEq, Prod.mk.injEq] at h
      obtain ⟨hr, htd, hsp, hrest⟩ := h
      obtain ⟨ho, hc, _⟩ := captureLoop_emit polls defaultAudioFrame hcl
      subst htd
      exact ⟨ho, hc, hsp.symm⟩
    | accept f =>
      simp only [Option.some.injEq, Prod.mk.injEq, CreateResult.buffer.injEq] at h
      obtain ⟨hb, htd, hsp, hrest⟩ := h
      have hpts := congrArg OutBuffer.pts hb
      simp [emptyBuffer] at hpts

/-- A `create` call whose first poll is `none` or `error` while the
missing-frame count is still below a nonzero threshold returns the
zero-length buffer and increments the count by one (lines 419-427). -/
theorem create_missing_incr {s : Settings} {i : AudioInfo} {time sp cmb off c : Nat}
    {p : Poll} {rest : List Poll} (hc : c < s.loss_threshold)
    (hp : p = Poll.none_ ∨ p = Poll.error) :
    create s (some i) time sp cmb ⟨off, c⟩ (p :: rest)
      = some (CreateResult.buffer emptyBuffer, ⟨off, c + 1⟩, sp, rest) := by
  cases hp with
  | inl hp =>
    subst hp
    simp only [create, captureLoop]
    rw [if_pos (by omega : s.loss_threshold ≠ 0), if_pos hc]
  | inr hp =>
    subst hp
    simp only [create, captureLoop]
    rw [if_pos hc]

/-- A `create` call whose first poll is `none` or `error` when the
missing-frame count has already reached the nonzero threshold fails
with the "source closed" read error (lines 428-429), leaving the
counters unchanged. -/
theorem create_missing_fail {s : Settings} {i : AudioInfo} {time sp cmb off c : Nat}
    {p : Poll} {rest : List Poll} (hlt : s.loss_threshold ≠ 0)
    (hc : s.loss_threshold ≤ c) (hp : p = Poll.none_ ∨ p = Poll.error) :
    create s (some i) time sp cmb ⟨off, c⟩ (p :: rest)
      = some (CreateResult.flowError, ⟨off, c⟩, sp, rest) := by
  cases hp with
  | inl hp =>
    subst hp
    simp only [create, captureLoop]
    rw [if_pos hlt, if_neg (by omega : ¬ c < s.loss_threshold)]
  | inr hp =>
    subst hp
    simp only [create, captureLoop]
    rw [if_neg (by omega : ¬ c < s.loss_threshold)]

/-- Unfolding one step of `runN` when the outcome of the first call
and the run over the remaining calls are known. -/
theorem runN_cons {s : Settings} {info : Option AudioInfo} {time cmb n sp sp' sp'' : Nat}
    {td td' td'' : TimestampData} {r : CreateResult} {rs : List CreateResult}
    {polls polls' polls'' : List Poll}
    (h : create s info time sp cmb td polls = some (r, td', sp', polls'))
    (h2 : runN s info time cmb n sp' td' polls' = some (rs, td'', sp'', polls'')) :
    runN s info time cmb (n + 1) sp td polls = some (r :: rs, td'', sp'', polls'') := by
  simp only [runN, h, h2]

/-- Helper for the loss-threshold run: starting from missing-frame
count `c` with `c + m` equal to the threshold, the next `m` calls on
any stream of `none`/`error` polls return zero-length buffers while
the count climbs to the threshold, and the call after them fails. -/
theorem lossRunAux {s : Settings} {i : AudioInfo} {time cmb sp off : Nat}
    (hlt : 0 < s.loss_threshold) :
    ∀ (m c : Nat) (polls : List Poll), c + m = s.loss_threshold →
    polls.length = m + 1 →
    (∀ p ∈ polls, p = Poll.none_ ∨ p = Poll.error) →
    runN s (some i) time cmb (m + 1) sp ⟨off, c⟩ polls
      = some (List.replicate m (CreateResult.buffer emptyBuffer)
          ++ [CreateResult.flowError], ⟨off, s.loss_threshold⟩, sp, []) := by
  intro m
  induction m with
  | zero =>
    intro c polls hc hlen hall
    have hce : c = s.loss_threshold := by omega
    subst hce
    cases polls with
    | nil => simp at hlen
    | cons p rest =>
      cases rest with
      | nil =>
        have hp := hall p (by simp)
        have h2 : runN s (some i) time cmb 0 sp ⟨off, s.loss_threshold⟩ []
            = some ([], ⟨off, s.loss_threshold⟩, sp, []) := rfl
        simpa using runN_cons (create_missing_fail (by omega) (le_refl _) hp) h2
      | cons q rest2 => simp at hlen
  | succ m ih =>
    intro c polls hc hlen hall
    cases polls with
    | nil => simp at hlen
    | cons p rest =>
      have hp := hall p (by simp)
      have hlen' : rest.length = m + 1 := by simp at hlen; omega
      have hcons := runN_cons (create_missing_incr (by omega : c < s.loss_threshold) hp)
        (ih (c + 1) rest (by omega) hlen' (fun q hq => hall q (by simp [hq])))
      rw [hcons]
      simp [List.replicate_succ]

/-- C1, corrected.  The claim as stated is off by one: with
`loss_threshold = N > 0` and the missing-frame count starting at zero,
each of the first `N` consecutive none/error polls makes `create`
return a zero-length buffer and increment `consecutive_missing_count`
by one (the test at line 422 is `count < threshold` before the
increment), so the run's Nth call still succeeds; it is the call after
`N` consecutive missing polls — the `(N+1)`th — that fails with the
"source closed" read error. -/
theorem c1_loss_run (s : Settings) (i : AudioInfo) (time cmb sp off : Nat)
    (polls : List Poll) (hN : 0 < s.loss_threshold)
    (hlen : polls.length = s.loss_threshold + 1)
    (hall : ∀ p ∈ polls, p = Poll.none_ ∨ p = Poll.error) :
    runN s (some i) time cmb (s.loss_threshold + 1) sp ⟨off, 0⟩ polls
      = some (List.replicate s.loss_threshold (CreateResult.buffer emptyBuffer)
          ++ [CreateResult.flowError], ⟨off, s.loss_threshold⟩, sp, []) ∧
    ∀ (c : Nat) (p : Poll) (rest : List Poll), c < s.loss_threshold →
      p = Poll.none_ ∨ p = Poll.error →
      create s (some i) time sp cmb ⟨off, c⟩ (p :: rest)
        = some (CreateResult.buffer emptyBuffer, ⟨off, c + 1⟩, sp, rest) :=
  ⟨lossRunAux hN s.loss_threshold 0 polls (by omega) hlen hall,
   fun _ _ _ hc hp => create_missing_incr hc hp⟩

/-- C1, counterexample to the claim as stated: with
`loss_threshold = N = 1`, the claim says a run of one `none` poll makes
the first (`N`th) `create` call fail with the "source closed"
read error; the code instead returns a zero-length buffer Ok result
from that call. -/
theorem c1_counterexample :
    create (cSettings 1) (some cInfo) 100 0 0 ⟨0, 0⟩ [Poll.none_]
      = some (CreateResult.buffer emptyBuffer, ⟨0, 1⟩, 0, []) ∧
    CreateResult.buffer emptyBuffer ≠ CreateResult.flowError := by
  exact ⟨by decide, by decide⟩

/-- Witness for `c1_loss_run` at threshold 2 on a mixed
error/none/error run. -/
theorem c1_loss_run_witness :
    0 < (cSettings 2).loss_threshold ∧
    ([Poll.error, Poll.none_, Poll.error] : List Poll).length
      = (cSettings 2).loss_threshold + 1 ∧
    (∀ p ∈ ([Poll.error, Poll.none_, Poll.error] : List Poll),
      p = Poll.none_ ∨ p = Poll.error) ∧
    (runN (cSettings 2) (some cInfo) 100 7 ((cSettings 2).loss_threshold + 1) 3 ⟨5, 0⟩
        [Poll.error, Poll.none_, Poll.error]
      = some (List.replicate (cSettings 2).loss_threshold (CreateResult.buffer emptyBuffer)
          ++ [CreateResult.flowError], ⟨5, (cSettings 2).loss_threshold⟩, 3, []) ∧
    ∀ (c : Nat) (p : Poll) (rest : List Poll), c < (cSettings 2).loss_threshold →
      p = Poll.none_ ∨ p = Poll.error →
      create (cSettings 2) (some cInfo) 100 3 7 ⟨5, c⟩ (p :: rest)
        = some (CreateResult.buffer emptyBuffer, ⟨5, c + 1⟩, 3, rest)) :=
  ⟨by decide, by decide, by decide,
    c1_loss_run (cSettings 2) cInfo 100 7 3 5 [Poll.error, Poll.none_, Poll.error]
      (by decide) (by decide) (by decide)⟩

/-- C2, counterexample to the claim as stated: the epoch update of
`change_state` is applied with `initial_timestamp = 100` and a newly
observed frame timestamp of 200 — the epoch moves forward to 200 —
and with a newly observed timestamp of 50 — the epoch does not move
backward — the exact opposite of the claimed backward-only update. -/
theorem c2_counterexample :
    setInitialTimestamp 100 200 = 200 ∧ (200 : Nat) ≠ 100 ∧
    setInitialTimestamp 100 50 = 100 ∧ (100 : Nat) ≠ 50 := by decide

/-- C2, corrected.  The epoch update (lines 274-278) is forward-only,
not backward-only: once `initial_timestamp` is established (nonzero),
a subsequent set never moves it backward, and it changes only when the
newly observed frame timestamp is at least the current epoch, in which
case the epoch becomes that (equal or later) timestamp. -/
theorem c2_epoch_forward_only (cur ts : Nat) (_h : cur ≠ 0) :
    cur ≤ setInitialTimestamp cur ts ∧
    (setInitialTimestamp cur ts ≠ cur →
      cur ≤ ts ∧ setInitialTimestamp cur ts = ts) := by
  unfold setInitialTimestamp
  by_cases hle : cur ≤ ts
  · rw [if_pos (Or.inl hle)]
    exact ⟨hle, fun _ => ⟨hle, rfl⟩⟩
  · rw [if_neg (by omega)]
    exact ⟨le_refl cur, fun hne => absurd rfl hne⟩

/-- Witness for `c2_epoch_forward_only` at epoch 100, new timestamp 200. -/
theorem c2_epoch_forward_only_witness :
    (100 : Nat) ≠ 0 ∧
    (100 ≤ setInitialTimestamp 100 200 ∧
      (setInitialTimestamp 100 200 ≠ 100 →
        100 ≤ 200 ∧ setInitialTimestamp 100 200 = 200)) :=
  ⟨by decide, c2_epoch_forward_only 100 200 (by decide)⟩

/-- C3, counterexample to the claim as stated: the acquisition loop
only discards frames not ahead of the epoch (line 437), it does not
order accepted frames, so a frame stream whose timestamps decrease
(110 then 105, both ahead of the epoch 100) produces strictly
decreasing pts values (1007 then 507) across two `create` calls. -/
theorem c3_counterexample :
    create (cSettings 40000) (some cInfo) 100 0 7 ⟨0, 0⟩
        [Poll.audio cF110, Poll.audio cF105]
      = some (CreateResult.buffer ⟨16, some 1007, some 83333, some 0, some 4⟩,
          ⟨4, 0⟩, 7, [Poll.audio cF105]) ∧
    create (cSettings 40000) (some cInfo) 100 7 7 ⟨4, 0⟩ [Poll.audio cF105]
      = some (CreateResult.buffer ⟨16, some 507, some 83333, some 4, some 8⟩,
          ⟨8, 0⟩, 7, []) ∧
    (507 : Nat) < 1007 := by
  exact ⟨by decide, by decide, by decide⟩

/-- The once-on-zero `ndi_struct.start_pts` replacement
(lines 454-457) is idempotent. -/
theorem startPts_set_idem (sp cmb : Nat) :
    (if (if sp = 0 then cmb else sp) = 0 then cmb else (if sp = 0 then cmb else sp))
      = (if sp = 0 then cmb else sp) := by
  by_cases h0 : sp = 0
  · by_cases hc : cmb = 0 <;> simp [h0, hc]
  · simp [h0]

/-- The capture loop consumes polls from the front: the returned
remainder is a suffix of the input stream. -/
theorem captureLoop_suffix {loss_threshold time : Nat} {td : TimestampData}
    {ex : LoopExit} {rest : List Poll} :
    ∀ (polls : List Poll) (af : AudioFrame),
    captureLoop loss_threshold time td af polls = some (ex, rest) →
    ∃ pre, polls = pre ++ rest := by
  intro polls
  induction polls with
  | nil => intro af h; simp [captureLoop] at h
  | cons p rest' ih =>
    intro af h
    cases p with
    | audio f =>
      simp only [captureLoop] at h
      split at h
      · obtain ⟨pre, hpre⟩ := ih f h
        exact ⟨Poll.audio f :: pre, by simp [hpre]⟩
      · simp only [Option.some.injEq, Prod.mk.injEq] at h
        exact ⟨[Poll.audio f], by simp [h.2]⟩
    | video =>
      simp only [captureLoop] at h
      split at h
      · obtain ⟨pre, hpre⟩ := ih af h
        exact ⟨Poll.video :: pre, by simp [hpre]⟩
      · simp only [Option.some.injEq, Prod.mk.injEq] at h
        exact ⟨[Poll.video], by simp [h.2]⟩
    | metadata =>
      simp only [captureLoop] at h
      split at h
      · obtain ⟨pre, hpre⟩ := ih af h
        exact ⟨Poll.metadata :: pre, by simp [hpre]⟩
      · simp only [Option.some.injEq, Prod.mk.injEq] at h
        exact ⟨[Poll.metadata], by simp [h.2]⟩
    | none_ =>
      simp only [captureLoop] at h
      split at h
      · split at h
        · simp only [Option.some.injEq, Prod.mk.injEq] at h
          exact ⟨[Poll.none_], by simp [h.2]⟩
        · simp only [Option.some.injEq, Prod.mk.injEq] at h
          exact ⟨[Poll.none_], by simp [h.2]⟩
      · simp only [Option.some.injEq, Prod.mk.injEq] at h
        exact ⟨[Poll.none_], by simp [h.2]⟩
    | error =>
      simp only [captureLoop] at h
      split at h
      · simp only [Option.some.injEq, Prod.mk.injEq] at h
        exact ⟨[Poll.error], by simp [h.2]⟩
      · simp only [Option.some.injEq, Prod.mk.injEq] at h
        exact ⟨[Poll.error], by simp [h.2]⟩

/-- A completed `create` call consumes polls from the front. -/
theorem create_suffix {s : Settings} {i : AudioInfo} {time sp cmb : Nat}
    {td td' : TimestampData} {r : CreateResult} {sp' : Nat} {polls rest : List Poll}
    (h : create s (some i) time sp cmb td polls = some (r, td', sp', rest)) :
    ∃ pre, polls = pre ++ rest := by
  simp only [create] at h
  cases hcl : captureLoop s.loss_threshold time td defaultAudioFrame polls with
  | none => rw [hcl] at h; simp at h
  | some x =>
    obtain ⟨ex, rest0⟩ := x
    rw [hcl] at h
    have hr0 : rest0 = rest := by
      cases ex with
      | emit r0 td0 =>
        simp only [Option.some.injEq, Prod.mk.injEq] at h
        exact h.2.2.2
      | accept f =>
        simp only [Option.some.injEq, Prod.mk.injEq] at h
        exact h.2.2.2
    rw [hr0] at hcl
    exact captureLoop_suffix polls defaultAudioFrame hcl

/-- `create` leaves `start_pts` unchanged on the loss paths and applies
the once-on-zero rule on the accept path. -/
theorem create_sp {s : Settings} {i : AudioInfo} {time sp cmb : Nat}
    {td td' : TimestampData} {r : CreateResult} {sp' : Nat} {polls rest : List Poll}
    (h : create s (some i) time sp cmb td polls = some (r, td', sp', rest)) :
    sp' = sp ∨ sp' = (if sp = 0 then cmb else sp) := by
  simp only [create] at h
  cases hcl : captureLoop s.loss_threshold time td defaultAudioFrame polls with
  | none => rw [hcl] at h; simp at h
  | some x =>
    obtain ⟨ex, rest0⟩ := x
    rw [hcl] at h
    cases ex with
    | emit r0 td0 =>
      simp only [Option.some.injEq, Prod.mk.injEq] at h
      exact Or.inl h.2.2.1.symm
    | accept f =>
      simp only [Option.some.injEq, Prod.mk.injEq] at h
      exact Or.inr h.2.2.1.symm

/-- A completed `create` call on a negotiated adapter takes either a
loss path (unstamped silence buffer or fatal error, running offset
unchanged) or the accept path (a buffer with a stamped pts). -/
theorem create_shape {s : Settings} {i : AudioInfo} {time sp cmb : Nat}
    {td td' : TimestampData} {r : CreateResult} {sp' : Nat} {polls rest : List Poll}
    (h : create s (some i) time sp cmb td polls = some (r, td', sp', rest)) :
    ((r = CreateResult.buffer emptyBuffer ∨ r = CreateResult.flowError) ∧
      td'.offset = td.offset) ∨
    ∃ b p, r = CreateResult.buffer b ∧ b.pts = some p := by
  simp only [create] at h
  cases hcl : captureLoop s.loss_threshold time td defaultAudioFrame polls with
  | none => rw [hcl] at h; simp at h
  | some x =>
    obtain ⟨ex, rest0⟩ := x
    rw [hcl] at h
    cases ex with
    | emit r0 td0 =>
      simp only [Option.some.injEq, Prod.mk.injEq] at h
      obtain ⟨hr, htd, -, -⟩ := h
      subst hr; subst htd
      obtain ⟨ho, -, hre⟩ := captureLoop_emit polls defaultAudioFrame hcl
      exact Or.inl ⟨hre, ho⟩
    | accept f =>
      simp only [Option.some.injEq, Prod.mk.injEq] at h
      obtain ⟨hr, -, -, -⟩ := h
      exact Or.inr ⟨_, _, hr.symm, rfl⟩

/-- An audio poll contributes its timestamp to `audioTimestamps`. -/
theorem mem_audioTimestamps {g : AudioFrame} {l : List Poll}
    (h : Poll.audio g ∈ l) : g.timestamp ∈ audioTimestamps l := by
  unfold audioTimestamps
  exact List.mem_filterMap.mpr ⟨Poll.audio g, h, rfl⟩

/-- `audioTimestamps` distributes over append. -/
theorem audioTimestamps_append (l1 l2 : List Poll) :
    audioTimestamps (l1 ++ l2) = audioTimestamps l1 ++ audioTimestamps l2 := by
  unfold audioTimestamps
  rw [List.filterMap_append]

/-- Run-level pts characterization: over any number of `create` calls
with a fixed receiver epoch (silence and error returns included),
every stamped pts comes from an audio poll strictly ahead of the epoch
and equals that frame's epoch offset in 100 ns ticks times 100 plus
the stabilized `start_pts`; and if the stream's audio timestamps are
non-decreasing, so is the sequence of stamped pts. -/
theorem runN_pts_spec {s : Settings} {i : AudioInfo} {time cmb : Nat} :
    ∀ (n sp : Nat) (td : TimestampData) (polls : List Poll)
      (rs : List CreateResult) (td2 : TimestampData) (sp2 : Nat) (polls2 : List Poll),
    runN s (some i) time cmb n sp td polls = some (rs, td2, sp2, polls2) →
    List.Pairwise (· ≤ ·) (audioTimestamps polls) →
    (∀ p ∈ realPts rs, ∃ g, Poll.audio g ∈ polls ∧ time < g.timestamp ∧
        p = (g.timestamp - time) * 100 + (if sp = 0 then cmb else sp)) ∧
      List.Pairwise (· ≤ ·) (realPts rs) := by
  intro n
  induction n with
  | zero =>
    intro sp td polls rs td2 sp2 polls2 h hsort
    simp only [runN, Option.some.injEq, Prod.mk.injEq] at h
    obtain ⟨hrs, -, -, -⟩ := h
    rw [← hrs]
    simp [realPts]
  | succ n ih =>
    intro sp td polls rs td2 sp2 polls2 h hsort
    simp only [runN] at h
    cases hc1 : create s (some i) time sp cmb td polls with
    | none => rw [hc1] at h; simp at h
    | some x =>
      obtain ⟨r, td', sp', polls'⟩ := x
      simp only [hc1] at h
      cases hrn : runN s (some i) time cmb n sp' td' polls' with
      | none => rw [hrn] at h; simp at h
      | some y =>
        obtain ⟨rs', td2', sp2', polls2'⟩ := y
        simp only [hrn, Option.some.injEq, Prod.mk.injEq] at h
        obtain ⟨hrs, -, -, -⟩ := h
        obtain ⟨pre0, hsuff⟩ := create_suffix hc1
        have hsort' : List.Pairwise (· ≤ ·) (audioTimestamps polls') := by
          rw [hsuff, audioTimestamps_append] at hsort
          exact (List.pairwise_append.mp hsort).2.1
        have hspfix : (if sp' = 0 then cmb else sp') = (if sp = 0 then cmb else sp) := by
          cases create_sp hc1 with
          | inl he => rw [he]
          | inr he => rw [he]; exact startPts_set_idem sp cmb
        obtain ⟨ihform, ihpair⟩ := ih sp' td' polls' rs' td2' sp2' polls2' hrn hsort'
        rw [hspfix] at ihform
        have hskip : ∀ p ∈ realPts rs', ∃ g, Poll.audio g ∈ polls ∧
            time < g.timestamp ∧
            p = (g.timestamp - time) * 100 + (if sp = 0 then cmb else sp) := by
          intro p hp
          obtain ⟨g, hg, ht, he⟩ := ihform p hp
          refine ⟨g, ?_, ht, he⟩
          rw [hsuff]
          exact List.mem_append_right _ hg
        rw [← hrs]
        cases r with
        | notNegotiated => exact ⟨hskip, ihpair⟩
        | flowError => exact ⟨hskip, ihpair⟩
        | buffer b =>
          cases hbp : b.pts with
          | none =>
            have hre : realPts (CreateResult.buffer b :: rs') = realPts rs' := by
              simp [realPts, hbp]
            rw [hre]
            exact ⟨hskip, ihpair⟩
          | some p0 =>
            have hre : realPts (CreateResult.buffer b :: rs') = p0 :: realPts rs' := by
              simp [realPts, hbp]
            rw [hre]
            obtain ⟨pre1, f1, hpre1, ht1, hsp1, hpts1, -, -, -, -, -⟩ :=
              create_buffer_spec hc1 hbp
            constructor
            · intro p hp
              rcases List.mem_cons.mp hp with hp0 | hp'
              · subst hp0
                refine ⟨f1, ?_, ht1, ?_⟩
                · rw [hpre1]
                  exact List.mem_append_right _ (List.mem_cons_self _ _)
                · rw [hpts1, hsp1]
              · exact hskip p hp'
            · refine List.pairwise_cons.mpr ⟨?_, ihpair⟩
              intro q hq
              obtain ⟨g, hg, htg, hqe⟩ := ihform q hq
              have hgmem : g.timestamp ∈ audioTimestamps polls' := mem_audioTimestamps hg
              have hf1g : f1.timestamp ≤ g.timestamp := by
                rw [hpre1, audioTimestamps_append] at hsort
                have h3 := (List.pairwise_append.mp hsort).2.1
                have h4 : audioTimestamps (Poll.audio f1 :: polls')
                    = f1.timestamp :: audioTimestamps polls' := by
                  unfold audioTimestamps
                  rw [List.filterMap_cons]
                rw [h4] at h3
                exact (List.pairwise_cons.mp h3).1 _ hgmem
              rw [hpts1, hsp1, hqe]
              omega

/-- C3, corrected.  For a fixed receiver epoch, over any run of
`create` calls (real buffers possibly separated by silence or error
returns), every stamped pts is at least the stabilized stream-start
offset `start_pts` plus 100 ns — its epoch-relative part is strictly
positive, since accepted frames are strictly ahead of the epoch — and
the sequence of stamped pts is monotonically non-decreasing provided
the stream's audio timestamps arrive in non-decreasing order;
out-of-order inputs (see the counterexample) can decrease it. -/
theorem c3_pts_nonneg_mono {s : Settings} {i : AudioInfo} {time sp cmb n : Nat}
    {td td' : TimestampData} {sp' : Nat} {polls polls' : List Poll}
    {rs : List CreateResult}
    (hsort : List.Pairwise (· ≤ ·) (audioTimestamps polls))
    (h : runN s (some i) time cmb n sp td polls = some (rs, td', sp', polls')) :
    (∀ p ∈ realPts rs, (if sp = 0 then cmb else sp) + 100 ≤ p) ∧
    List.Pairwise (· ≤ ·) (realPts rs) := by
  obtain ⟨hform, hpair⟩ := runN_pts_spec n sp td polls rs td' sp' polls' h hsort
  refine ⟨?_, hpair⟩
  intro p hp
  obtain ⟨g, -, hgt, hpe⟩ := hform p hp
  omega

/-- Witness for `c3_pts_nonneg_mono` on a sorted three-call run whose
middle call returns silence: pts 507 and 1007 both exceed
`start_pts + 100 = 107` and are non-decreasing. -/
theorem c3_pts_nonneg_mono_witness :
    List.Pairwise (· ≤ ·)
      (audioTimestamps [Poll.audio cF105, Poll.none_, Poll.audio cF110]) ∧
    ((∀ p ∈ realPts [CreateResult.buffer ⟨16, some 507, some 83333, some 0, some 4⟩,
          CreateResult.buffer emptyBuffer,
          CreateResult.buffer ⟨16, some 1007, some 83333, some 4, some 8⟩],
        (if (0 : Nat) = 0 then 7 else 0) + 100 ≤ p) ∧
      List.Pairwise (· ≤ ·)
        (realPts [CreateResult.buffer ⟨16, some 507, some 83333, some 0, some 4⟩,
          CreateResult.buffer emptyBuffer,
          CreateResult.buffer ⟨16, some 1007, some 83333, some 4, some 8⟩])) :=
  ⟨by decide,
    @c3_pts_nonneg_mono (cSettings 40000) cInfo 100 0 7 3 ⟨0, 0⟩ ⟨8, 0⟩ 7
      [Poll.audio cF105, Poll.none_, Poll.audio cF110] []
      [CreateResult.buffer ⟨16, some 507, some 83333, some 0, some 4⟩,
        CreateResult.buffer emptyBuffer,
        CreateResult.buffer ⟨16, some 1007, some 83333, some 4, some 8⟩]
      (by decide) (by decide)⟩

/-- C4, counterexample to the claim as stated: with the process-global
`ndi_struct.start_pts` equal to 7, a frame with timestamp 110 against
epoch 100 is stamped with pts `(110 - 100) * 100 + 7 = 1007`
nanoseconds, not the claimed `(110 - 100) * 100 = 1000`. -/
theorem c4_counterexample :
    create (cSettings 40000) (some cInfo) 100 7 7 ⟨0, 0⟩ [Poll.audio cF110]
      = some (CreateResult.buffer ⟨16, some 1007, some 83333, some 0, some 4⟩,
          ⟨4, 0⟩, 7, []) ∧
    (1007 : Nat) ≠ (110 - 100) * 100 := by
  exact ⟨by decide, by decide⟩

/-- C4, corrected.  The pts stamped on an accepted buffer is
`(frame.timestamp - initial_timestamp) * 100` nanoseconds (the 100 ns
tick conversion of the claim) plus the process-global
`ndi_struct.start_pts` offset (lines 454-463), where `start_pts` is
set on the first produced buffer to the element's clock time minus its
base time and left unchanged afterwards. -/
theorem c4_pts_formula {s : Settings} {i : AudioInfo} {time sp cmb : Nat}
    {td td' : TimestampData} {b : OutBuffer} {sp' : Nat}
    {polls rest : List Poll} {p : Nat}
    (h : create s (some i) time sp cmb td polls
      = some (CreateResult.buffer b, td', sp', rest))
    (hp : b.pts = some p) :
    ∃ pre f, polls = pre ++ Poll.audio f :: rest ∧
      time < f.timestamp ∧
      sp' = (if sp = 0 then cmb else sp) ∧
      p = (f.timestamp - time) * 100 + sp' := by
  obtain ⟨pre, f, h1, h2, h3, h4, _⟩ := create_buffer_spec h hp
  exact ⟨pre, f, h1, h2, h3, h4⟩

/-- Witness for `c4_pts_formula` with a zero `start_pts` replaced by
the clock offset 7. -/
theorem c4_pts_formula_witness :
    ∃ pre f, ([Poll.audio cF110] : List Poll) = pre ++ Poll.audio f :: [] ∧
      100 < f.timestamp ∧
      (7 : Nat) = (if (0 : Nat) = 0 then 7 else 0) ∧
      (1007 : Nat) = (f.timestamp - 100) * 100 + 7 :=
  @c4_pts_formula (cSettings 40000) cInfo 100 0 7 ⟨0, 0⟩ ⟨4, 0⟩
    ⟨16, some 1007, some 83333, some 0, some 4⟩ 7 [Poll.audio cF110] [] 1007
    (by decide) rfl

/-- C5, counterexample to the claim as stated: with
`loss_threshold = 0`, a poll returning an `error` frame is immediately
fatal — the condition at lines 419-421 routes `error` into the loss
branch regardless of the threshold, and `count < 0` never holds — so
`create` fails instead of returning a zero-length buffer. -/
theorem c5_counterexample :
    create (cSettings 0) (some cInfo) 100 0 0 ⟨0, 0⟩ [Poll.error]
      = some (CreateResult.flowError, ⟨0, 0⟩, 0, []) ∧
    CreateResult.flowError ≠ CreateResult.buffer emptyBuffer := by
  exact ⟨by decide, by decide⟩

/-- C5, corrected.  With `loss_threshold = 0`, a poll returning a
`none` frame makes `create` return a zero-length buffer with all
counters unchanged and never a fatal error (lines 431-435), but a poll
returning an `error` frame makes the call fail immediately with the
"source closed" read error. -/
theorem c5_zero_threshold {s : Settings} {i : AudioInfo} {time sp cmb : Nat}
    {td : TimestampData} {rest : List Poll} (h : s.loss_threshold = 0) :
    create s (some i) time sp cmb td (Poll.none_ :: rest)
      = some (CreateResult.buffer emptyBuffer, td, sp, rest) ∧
    create s (some i) time sp cmb td (Poll.error :: rest)
      = some (CreateResult.flowError, td, sp, rest) := by
  constructor
  · simp [create, captureLoop, h]
  · simp only [create, captureLoop, h]
    rw [if_neg (by omega : ¬ td.count_frame_none < 0)]

/-- Witness for `c5_zero_threshold` at threshold 0. -/
theorem c5_zero_threshold_witness :
    (cSettings 0).loss_threshold = 0 ∧
    (create (cSettings 0) (some cInfo) 100 3 7 ⟨5, 2⟩ [Poll.none_]
        = some (CreateResult.buffer emptyBuffer, ⟨5, 2⟩, 3, []) ∧
      create (cSettings 0) (some cInfo) 100 3 7 ⟨5, 2⟩ [Poll.error]
        = some (CreateResult.flowError, ⟨5, 2⟩, 3, [])) :=
  ⟨by decide, c5_zero_threshold (by decide)⟩

/-- C6, confirmed.  A captured audio frame whose timestamp is not
ahead of the established `initial_timestamp` (line 437: skipped when
`time >= frame.timestamp`) is discarded and the loop re-polls: the
whole `create` call behaves exactly as if the frame had not been in
the stream, so `running_sample_offset`, `consecutive_missing_count`
and everything else are unchanged by it. -/
theorem c6_pre_epoch_skip {s : Settings} {i : AudioInfo} {time sp cmb : Nat}
    {td : TimestampData} {f : AudioFrame} {rest : List Poll}
    (h : f.timestamp ≤ time) :
    create s (some i) time sp cmb td (Poll.audio f :: rest)
      = create s (some i) time sp cmb td rest := by
  simp only [create]
  have heq : captureLoop s.loss_threshold time td defaultAudioFrame (Poll.audio f :: rest)
      = captureLoop s.loss_threshold time td defaultAudioFrame rest := by
    simp only [captureLoop]
    rw [if_pos (by omega)]
    exact captureLoop_af_irrel rest f defaultAudioFrame h (by simp [defaultAudioFrame])
  rw [heq]

/-- Witness for `c6_pre_epoch_skip`: a pre-epoch frame (timestamp 50,
epoch 100) is transparent to the call. -/
theorem c6_pre_epoch_skip_witness :
    cF50.timestamp ≤ 100 ∧
    create (cSettings 40000) (some cInfo) 100 0 0 ⟨3, 2⟩ [Poll.audio cF50, Poll.none_]
      = create (cSettings 40000) (some cInfo) 100 0 0 ⟨3, 2⟩ [Poll.none_] :=
  ⟨by decide, c6_pre_epoch_skip (by decide)⟩

/-- C7, counterexample to the claim as stated: neither `stop`
(lines 315-323) nor `start` (lines 301-313) touches
`timestamp_data`, so `running_sample_offset` is NOT reset by stop or
by a fresh start: an adapter whose offset is 5 keeps offset 5 across
both. -/
theorem c7_counterexample :
    ((stop ⟨cSettings 5, ⟨some cInfo⟩, ⟨5, 3⟩⟩).1).timestamp_data.offset = 5 ∧
    ((start ⟨cSettings 5, ⟨some cInfo⟩, ⟨5, 3⟩⟩ 2).1).timestamp_data.offset = 5 ∧
    (5 : Nat) ≠ 0 := by decide

/-- C7, corrected.  `running_sample_offset` is monotonically
non-decreasing across `create` calls, but it is never reset at all:
`stop` and `start` both leave `timestamp_data` (offset and
missing-frame count) unchanged, so the offset persists across
stop/start cycles. -/
theorem c7_offset_monotone_never_reset {s : Settings} {info : Option AudioInfo}
    {time sp cmb : Nat} {td td' : TimestampData} {r : CreateResult} {sp' : Nat}
    {polls rest : List Poll} (a : NdiAudioSrc) (connectResult : Int)
    (h : create s info time sp cmb td polls = some (r, td', sp', rest)) :
    td.offset ≤ td'.offset ∧
    (stop a).1.timestamp_data = a.timestamp_data ∧
    (start a connectResult).1.timestamp_data = a.timestamp_data := by
  refine ⟨?_, rfl, rfl⟩
  cases info with
  | none =>
    simp only [create, Option.some.injEq, Prod.mk.injEq] at h
    obtain ⟨_, htd, _⟩ := h
    rw [← htd]
  | some i0 =>
    simp only [create] at h
    cases hcl : captureLoop s.loss_threshold time td defaultAudioFrame polls with
    | none => rw [hcl] at h; simp at h
    | some x =>
      obtain ⟨le, rest0⟩ := x
      rw [hcl] at h
      cases le with
      | emit r0 td0 =>
        simp only [Option.some.injEq, Prod.mk.injEq] at h
        obtain ⟨_, htd, _⟩ := h
        have ho := (captureLoop_emit polls defaultAudioFrame hcl).1
        rw [← htd, ho]
      | accept f =>
        simp only [Option.some.injEq, Prod.mk.injEq] at h
        obtain ⟨_, htd, _⟩ := h
        rw [← htd]
        exact Nat.le_add_right _ _

/-- Witness for `c7_offset_monotone_never_reset` on a concrete
accepting call and a concrete adapter. -/
theorem c7_offset_monotone_never_reset_witness :
    create (cSettings 40000) (some cInfo) 100 0 7 ⟨0, 0⟩ [Poll.audio cF110]
      = some (CreateResult.buffer ⟨16, some 1007, some 83333, some 0, some 4⟩,
          ⟨4, 0⟩, 7, []) ∧
    ((0 : Nat) ≤ 4 ∧
      (stop ⟨cSettings 5, ⟨some cInfo⟩, ⟨5, 3⟩⟩).1.timestamp_data = ⟨5, 3⟩ ∧
      (start ⟨cSettings 5, ⟨some cInfo⟩, ⟨5, 3⟩⟩ 2).1.timestamp_data = ⟨5, 3⟩) :=
  ⟨by decide,
    @c7_offset_monotone_never_reset (cSettings 40000) (some cInfo) 100 0 7 ⟨0, 0⟩ ⟨4, 0⟩
      (CreateResult.buffer ⟨16, some 1007, some 83333, some 0, some 4⟩) 7
      [Poll.audio cF110] [] ⟨cSettings 5, ⟨some cInfo⟩, ⟨5, 3⟩⟩ 2 (by decide)⟩

/-- A contiguous offset chain yields the claim's adjacency property:
each buffer's offset_end equals the next buffer's offset. -/
theorem offsetChain_adjacent :
    ∀ (bs : List OutBuffer) (o : Nat), offsetChain o bs →
    List.Chain' (fun b1 b2 => b1.offset_end = b2.offset) bs := by
  intro bs
  induction bs with
  | nil => intro o h; exact List.chain'_nil
  | cons b bs' ih =>
    intro o h
    obtain ⟨hoff, n, hoe, hrest⟩ := h
    cases bs' with
    | nil => exact List.chain'_singleton _
    | cons b2 bs2 =>
      have hoff2 := hrest.1
      exact List.chain'_cons.mpr ⟨by rw [hoe, hoff2], ih (o + n) hrest⟩

/-- Run-level buffer-metadata characterization: over any number of
`create` calls (silence and error returns included), every non-silence
buffer gets its byte size from its accepted frame, and the non-silence
buffers' offset / offset_end stamps form the contiguous sample chain
that starts at the run's initial `running_sample_offset` — silence
calls do not advance it. -/
theorem runN_buffers_spec {s : Settings} {i : AudioInfo} {time cmb : Nat} :
    ∀ (n sp : Nat) (td : TimestampData) (polls : List Poll)
      (rs : List CreateResult) (td2 : TimestampData) (sp2 : Nat) (polls2 : List Poll),
    runN s (some i) time cmb n sp td polls = some (rs, td2, sp2, polls2) →
    (∀ b ∈ realBuffers rs, ∃ f o, Poll.audio f ∈ polls ∧
        b.size = f.no_samples * 2 * f.no_channels ∧
        b.offset = some o ∧ b.offset_end = some (o + f.no_samples)) ∧
      offsetChain td.offset (realBuffers rs) := by
  intro n
  induction n with
  | zero =>
    intro sp td polls rs td2 sp2 polls2 h
    simp only [runN, Option.some.injEq, Prod.mk.injEq] at h
    obtain ⟨hrs, -, -, -⟩ := h
    rw [← hrs]
    exact ⟨by simp [realBuffers], trivial⟩
  | succ n ih =>
    intro sp td polls rs td2 sp2 polls2 h
    simp only [runN] at h
    cases hc1 : create s (some i) time sp cmb td polls with
    | none => rw [hc1] at h; simp at h
    | some x =>
      obtain ⟨r, td', sp', polls'⟩ := x
      simp only [hc1] at h
      cases hrn : runN s (some i) time cmb n sp' td' polls' with
      | none => rw [hrn] at h; simp at h
      | some y =>
        obtain ⟨rs', td2', sp2', polls2'⟩ := y
        simp only [hrn, Option.some.injEq, Prod.mk.injEq] at h
        obtain ⟨hrs, -, -, -⟩ := h
        obtain ⟨pre0, hsuff⟩ := create_suffix hc1
        obtain ⟨ihform, ihchain⟩ := ih sp' td' polls' rs' td2' sp2' polls2' hrn
        have hskip : ∀ b ∈ realBuffers rs', ∃ f o, Poll.audio f ∈ polls ∧
            b.size = f.no_samples * 2 * f.no_channels ∧
            b.offset = some o ∧ b.offset_end = some (o + f.no_samples) := by
          intro b hb
          obtain ⟨f, o, hf, hb1, hb2, hb3⟩ := ihform b hb
          refine ⟨f, o, ?_, hb1, hb2, hb3⟩
          rw [hsuff]
          exact List.mem_append_right _ hf
        rw [← hrs]
        rcases create_shape hc1 with ⟨hre, hoff⟩ | ⟨b, p0, hr, hbp⟩
        · have hrb : realBuffers (r :: rs') = realBuffers rs' := by
            rcases hre with hre | hre <;> subst hre
            · simp [realBuffers, emptyBuffer]
            · simp [realBuffers]
          rw [hrb]
          exact ⟨hskip, by rwa [hoff] at ihchain⟩
        · subst hr
          have hrb : realBuffers (CreateResult.buffer b :: rs') = b :: realBuffers rs' := by
            simp [realBuffers, hbp]
          rw [hrb]
          obtain ⟨pre1, f1, hpre1, ht1, hsp1, hpts1, hsz1, hdur1, hoff1, hoe1, htd1⟩ :=
            create_buffer_spec hc1 hbp
          constructor
          · intro bb hbb
            rcases List.mem_cons.mp hbb with hb0 | hb'
            · subst hb0
              refine ⟨f1, td.offset, ?_, hsz1, hoff1, hoe1⟩
              rw [hpre1]
              exact List.mem_append_right _ (List.mem_cons_self _ _)
            · exact hskip bb hb'
          · refine ⟨hoff1, f1.no_samples, hoe1, ?_⟩
            have htd' : td'.offset = td.offset + f1.no_samples := by rw [htd1]
            rwa [htd'] at ihchain

/-- C8, confirmed.  Over any run of `create` calls, every non-silence
buffer has byte length `no_samples * 2 * no_channels` of its accepted
frame (line 451), offset equal to the `running_sample_offset` before
its call and offset_end equal to offset + no_samples (lines 471-473):
the non-silence buffers' offsets form the contiguous chain starting at
the run's initial offset, so offset_end of non-silence buffer k equals
offset of non-silence buffer k+1 for every consecutive pair, silence
calls in between included. -/
theorem c8_buffer_metadata_chain {s : Settings} {i : AudioInfo} {time sp cmb n : Nat}
    {td td' : TimestampData} {sp' : Nat} {polls polls' : List Poll}
    {rs : List CreateResult}
    (h : runN s (some i) time cmb n sp td polls = some (rs, td', sp', polls')) :
    (∀ b ∈ realBuffers rs, ∃ f o, Poll.audio f ∈ polls ∧
        b.size = f.no_samples * 2 * f.no_channels ∧
        b.offset = some o ∧ b.offset_end = some (o + f.no_samples)) ∧
    offsetChain td.offset (realBuffers rs) ∧
    List.Chain' (fun b1 b2 => b1.offset_end = b2.offset) (realBuffers rs) := by
  obtain ⟨hform, hchain⟩ := runN_buffers_spec n sp td polls rs td' sp' polls' h
  exact ⟨hform, hchain, offsetChain_adjacent (realBuffers rs) td.offset hchain⟩

/-- Witness for `c8_buffer_metadata_chain` on a three-call run whose
middle call returns silence: the two real buffers chain 0-4 and 4-8
across the intervening silence. -/
theorem c8_buffer_metadata_chain_witness :
    (∀ b ∈ realBuffers [CreateResult.buffer ⟨16, some 507, some 83333, some 0, some 4⟩,
        CreateResult.buffer emptyBuffer,
        CreateResult.buffer ⟨16, some 1007, some 83333, some 4, some 8⟩],
      ∃ f o, Poll.audio f ∈ ([Poll.audio cF105, Poll.none_, Poll.audio cF110] : List Poll) ∧
        b.size = f.no_samples * 2 * f.no_channels ∧
        b.offset = some o ∧ b.offset_end = some (o + f.no_samples)) ∧
    offsetChain 0 (realBuffers [CreateResult.buffer ⟨16, some 507, some 83333, some 0, some 4⟩,
        CreateResult.buffer emptyBuffer,
        CreateResult.buffer ⟨16, some 1007, some 83333, some 4, some 8⟩]) ∧
    List.Chain' (fun b1 b2 => b1.offset_end = b2.offset)
      (realBuffers [CreateResult.buffer ⟨16, some 507, some 83333, some 0, some 4⟩,
        CreateResult.buffer emptyBuffer,
        CreateResult.buffer ⟨16, some 1007, some 83333, some 4, some 8⟩]) :=
  @c8_buffer_metadata_chain (cSettings 40000) cInfo 100 0 7 3 ⟨0, 0⟩ ⟨8, 0⟩ 7
    [Poll.audio cF105, Poll.none_, Poll.audio cF110] []
    [CreateResult.buffer ⟨16, some 507, some 83333, some 0, some 4⟩,
      CreateResult.buffer emptyBuffer,
      CreateResult.buffer ⟨16, some 1007, some 83333, some 4, some 8⟩]
    (by decide)

/-- C9, counterexample to the claim as stated: `create` reads
`loss_threshold` from the live settings (line 392, used at lines
419-422), so a property update after start changes the behaviour of
the very next `create` call in the same cycle: with the missing-frame
count at 1, lowering the threshold from 5 to 1 turns the next `none`
poll from a zero-length-buffer return into a fatal "source closed"
failure. -/
theorem c9_counterexample :
    create (set_property (cSettings 5) (PropValue.lossThreshold 1)) (some cInfo)
        100 0 0 ⟨0, 1⟩ [Poll.none_]
      = some (CreateResult.flowError, ⟨0, 1⟩, 0, []) ∧
    create (cSettings 5) (some cInfo) 100 0 0 ⟨0, 1⟩ [Poll.none_]
      = some (CreateResult.buffer emptyBuffer, ⟨0, 2⟩, 0, []) ∧
    CreateResult.flowError ≠ CreateResult.buffer emptyBuffer := by
  exact ⟨by decide, by decide, by decide⟩

/-- C9, corrected.  Updates to `stream_name` and `ip` indeed have no
effect on any `create` call of the current cycle (they are only read
by `start`/`connect_ndi`), but a `loss_threshold` update takes effect
on the very next `create` call, not at the next start (see the
counterexample). -/
theorem c9_name_ip_no_effect (s : Settings) (x y : String)
    (info : Option AudioInfo) (time sp cmb : Nat) (td : TimestampData)
    (polls : List Poll) :
    create (set_property s (PropValue.streamName x)) info time sp cmb td polls
      = create s info time sp cmb td polls ∧
    create (set_property s (PropValue.ipAddr y)) info time sp cmb td polls
      = create s info time sp cmb td polls := by
  cases info <;> exact ⟨rfl, rfl⟩

/-- C10, confirmed.  Whenever `create` returns the zero-length silence
buffer (which by construction of `emptyBuffer` carries no pts,
duration, offset or offset_end stamp — it is
`gst::Buffer::with_size(0)` returned before any metadata call), the
running sample offset and the global `start_pts` are unchanged, and
`consecutive_missing_count` is either unchanged (zero-threshold
branch) or incremented by one. -/
theorem c10_silence_no_stamp {s : Settings} {i : AudioInfo} {time sp cmb : Nat}
    {td td' : TimestampData} {sp' : Nat} {polls rest : List Poll}
    (h : create s (some i) time sp cmb td polls
      = some (CreateResult.buffer emptyBuffer, td', sp', rest)) :
    emptyBuffer.size = 0 ∧ emptyBuffer.pts = none ∧
    emptyBuffer.duration = none ∧ emptyBuffer.offset = none ∧
    emptyBuffer.offset_end = none ∧
    td'.offset = td.offset ∧ sp' = sp ∧
    (td'.count_frame_none = td.count_frame_none ∨
      td'.count_frame_none = td.count_frame_none + 1) := by
  obtain ⟨ho, hc, hsp⟩ := create_silence_spec h
  exact ⟨rfl, rfl, rfl, rfl, rfl, ho, hsp, hc⟩

/-- Witness for `c10_silence_no_stamp` on a concrete tolerated-loss
call. -/
theorem c10_silence_no_stamp_witness :
    create (cSettings 5) (some cInfo) 100 3 7 ⟨6, 2⟩ [Poll.none_]
      = some (CreateResult.buffer emptyBuffer, ⟨6, 3⟩, 3, []) ∧
    (emptyBuffer.size = 0 ∧ emptyBuffer.pts = none ∧
      emptyBuffer.duration = none ∧ emptyBuffer.offset = none ∧
      emptyBuffer.offset_end = none ∧
      (6 : Nat) = 6 ∧ (3 : Nat) = 3 ∧
      ((3 : Nat) = 2 ∨ (3 : Nat) = 2 + 1)) :=
  ⟨by decide,
    @c10_silence_no_stamp (cSettings 5) cInfo 100 3 7 ⟨6, 2⟩ ⟨6, 3⟩ 3
      [Poll.none_] [] (by decide)⟩

end GstNdi
